import Mathlib

/-!
Shallow embedding of `src/scripts/prepare_network.py` (PyPSA-Eur network
preparation).  Strings are modelled as `List Char`; pandas/numpy float
arithmetic is modelled over `ℚ`.  Component tables of the PyPSA network
are modelled as lists of records; the `snakemake.config` dictionary is a
`Config` record whose line/link sections are association lists (a missing
key stands for the `np.inf` default of `dict.get`).
-/

namespace PrepareNetwork

/-- Strings of the embedded program, as character lists. -/
abbrev Str := List Char

/-! ## Numeric token parsing

The source uses `float_regex = "[0-9]*\.?[0-9]+$"` with `re.findall`, and
Python's `float` builtin for carrier cost factors. -/

/-- Whether `cs` matches the core pattern `[0-9]*\.?[0-9]+` in full:
optional leading digits, an optional dot, then at least one digit. -/
def isFloatStr (cs : Str) : Bool :=
  let p := cs.span (·.isDigit)
  match p.2 with
  | [] => !p.1.isEmpty
  | '.' :: d2 => !d2.isEmpty && d2.all (·.isDigit)
  | _ => false

/-- `re.findall("[0-9]*\.?[0-9]+$", o)` yields at most one match — the
longest suffix of `o` matching `[0-9]*\.?[0-9]+` — because the pattern is
anchored at the end of the string.  Returns that suffix, scanning
candidate start positions left to right as the regex engine does. -/
def trailingFloat : Str → Option Str
  | [] => none
  | c :: cs => if isFloatStr (c :: cs) then some (c :: cs) else trailingFloat cs

/-- Value of a digit string read in base 10. -/
def natOfDigits (cs : Str) : ℕ :=
  cs.foldl (fun a c => 10 * a + (c.toNat - 48)) 0

/-- `float(m)` for a string matching `[0-9]*\.?[0-9]+`: integer part plus
fractional part. -/
def parseFloatQ (cs : Str) : ℚ :=
  let p := cs.span (·.isDigit)
  match p.2 with
  | [] => (natOfDigits p.1 : ℚ)
  | _ :: d2 => (natOfDigits p.1 : ℚ) + (natOfDigits d2 : ℚ) / 10 ^ d2.length

/-- `str.split(sep)` for a one-character separator, Python semantics:
`"a+b".split("+") == ["a","b"]`, `"a".split("+") == ["a"]`,
`"+".split("+") == ["",""]`. -/
def splitOnChar (sep : Char) : Str → List Str
  | [] => [[]]
  | c :: cs =>
    if c == sep then [] :: splitOnChar sep cs
    else
      match splitOnChar sep cs with
      | [] => [[c]]
      | r :: rs => (c :: r) :: rs

/-- Exponent part of a Python float literal: optional sign then digits. -/
def pyExp? (s : Str) : Option ℤ :=
  match s with
  | '+' :: d => if !d.isEmpty && d.all (·.isDigit) then some (natOfDigits d) else none
  | '-' :: d => if !d.isEmpty && d.all (·.isDigit) then some (-(natOfDigits d : ℤ)) else none
  | d => if !d.isEmpty && d.all (·.isDigit) then some (natOfDigits d) else none

/-- Mantissa of a Python float literal: `digits+`, `digits+.digits*`,
or `.digits+` (Python accepts `"1."` and `".5"`). -/
def pyMantissa? (s : Str) : Option ℚ :=
  let p := s.span (·.isDigit)
  match p.2 with
  | [] => if p.1.isEmpty then none else some (natOfDigits p.1 : ℚ)
  | '.' :: d2 =>
    if d2.all (·.isDigit) && !(p.1.isEmpty && d2.isEmpty) then
      some ((natOfDigits p.1 : ℚ) + (natOfDigits d2 : ℚ) / 10 ^ d2.length)
    else none
  | _ => none

/-- The `float` builtin, modelled for finite decimal literals with
optional sign and exponent; the `inf`/`nan`/whitespace/underscore forms
(never produced by wildcard tokens) are omitted.  `none` models a raised
`ValueError`. -/
def pyFloat? (s : Str) : Option ℚ :=
  let unsigned : Str → Option ℚ := fun u =>
    match u.findIdx? (fun c => c == 'e' || c == 'E') with
    | none => pyMantissa? u
    | some i =>
      match pyMantissa? (u.take i), pyExp? (u.drop (i + 1)) with
      | some m, some e => some (m * (10 : ℚ) ^ e)
      | _, _ => none
  match s with
  | '+' :: rest => unsigned rest
  | '-' :: rest => (unsigned rest).map Neg.neg
  | rest => unsigned rest

/-! ## Data model

Component tables of the network, with the attributes the script touches. -/

structure Bus where
  name : Str
  country : Str
  v_nom : ℚ
deriving Repr, DecidableEq

structure Line where
  name : Str
  bus0 : Str
  bus1 : Str
  type : Str
  s_nom : ℚ
  num_parallel : ℚ
  s_nom_min : ℚ
  s_nom_max : ℚ
  s_max_pu : ℚ
  capital_cost : ℚ
  length : ℚ
  s_nom_extendable : Bool
deriving Repr, DecidableEq

structure Link where
  name : Str
  bus0 : Str
  bus1 : Str
  carrier : Str
  p_nom : ℚ
  p_nom_min : ℚ
  p_nom_max : ℚ
  capital_cost : ℚ
  length : ℚ
  p_nom_extendable : Bool
deriving Repr, DecidableEq

structure Generator where
  name : Str
  carrier : Str
  capital_cost : ℚ
  marginal_cost : ℚ
  efficiency : ℚ
deriving Repr, DecidableEq

structure StorageUnit where
  name : Str
  carrier : Str
  capital_cost : ℚ
  marginal_cost : ℚ
  efficiency_dispatch : ℚ
deriving Repr, DecidableEq

/-- A carrier row: its `<species>_emissions` columns as an association
list from species name (e.g. `"co2"`) to emission intensity. -/
structure Carrier where
  name : Str
  emissions : List (Str × ℚ)
deriving Repr, DecidableEq

structure GlobalConstraint where
  name : Str
  type : Str
  carrier_attribute : Str
  sense : Str
  constant : ℚ
deriving Repr, DecidableEq

/-- The PyPSA network object, restricted to what the script reads and
writes.  `snapshots` pairs each snapshot's hour index with its snapshot
weighting; `pnl` holds the time-indexed series of all components as
named series over the same hour index. -/
structure Network where
  buses : List Bus
  lines : List Line
  links : List Link
  generators : List Generator
  storage_units : List StorageUnit
  carriers : List Carrier
  line_types : List (Str × ℚ)
  snapshots : List (ℕ × ℚ)
  pnl : List (Str × List (ℕ × ℚ))
  global_constraints : List GlobalConstraint
deriving Repr, DecidableEq

/-- `snakemake.config`, restricted to the keys the script reads.  The
`lines`/`links` sections are association lists; an absent key stands for
the `np.inf` default of `.get(key, np.inf)`. -/
structure Config where
  co2limit : ℚ
  co2base : ℚ
  emission_prices : List (Str × ℚ)
  lines_cfg : List (Str × ℚ)
  links_cfg : List (Str × ℚ)
deriving Repr, DecidableEq

/-- Association-list lookup (dictionary / pandas index access). -/
def lookup? (xs : List (Str × ℚ)) (k : Str) : Option ℚ :=
  (xs.find? (fun p => p.1 == k)).map (·.2)

/-- `n.snapshot_weightings.sum() / 8760.` -/
def nyears (n : Network) : ℚ := (n.snapshots.map (·.2)).sum / 8760

/-- Python's `sub in s` substring test. -/
def containsSub (s sub : Str) : Bool :=
  s.tails.any (fun t => sub.isPrefixOf t)

/-- `n.buses.country` lookup for a bus name (well-formed networks have
every endpoint bus present; a missing bus yields the empty default). -/
def busCountry (n : Network) (b : Str) : Str :=
  ((n.buses.find? (fun x => x.name == b)).map (·.country)).getD []

/-- `n.buses.v_nom` lookup for a bus name. -/
def busVnom (n : Network) (b : Str) : ℚ :=
  ((n.buses.find? (fun x => x.name == b)).map (·.v_nom)).getD 0

/-! ## Operations of `prepare_network.py` -/

/-- `add_co2limit(n, Nyears, factor)`: appends the `"CO2Limit"` global
constraint with constant `annual_emissions * Nyears`, where
`annual_emissions` is `factor * co2base` when a factor is given and the
configured `co2limit` otherwise. -/
def add_co2limit (cfg : Config) (n : Network) (Nyears : ℚ) (factor : Option ℚ) : Network :=
  let annual_emissions : ℚ :=
    match factor with
    | some f => f * cfg.co2base
    | none => cfg.co2limit
  { n with global_constraints := n.global_constraints ++
      [{ name := "CO2Limit".toList
         type := "primary_energy".toList
         carrier_attribute := "co2_emissions".toList
         sense := "<=".toList
         constant := annual_emissions * Nyears }] }

/-- The per-carrier emission price
`(pd.Series(emission_prices).rename(x -> x+'_emissions') * n.carriers.filter(like='_emissions')).sum(axis=1)`:
for a carrier row, the sum over species of price times the carrier's
emission intensity for that species (0 for an absent column). -/
def emissionPriceOf (prices : List (Str × ℚ)) (c : Carrier) : ℚ :=
  (prices.map (fun p => p.2 * (lookup? c.emissions p.1).getD 0)).sum

/-- `ep` mapped through a component's carrier name (`carrier.map(ep)`);
a carrier missing from the carriers table contributes 0. -/
def epOfCarrier (prices : List (Str × ℚ)) (n : Network) (carrier : Str) : ℚ :=
  ((n.carriers.find? (fun c => c.name == carrier)).map
    (emissionPriceOf prices)).getD 0

/-- `add_emission_prices(n, emission_prices, exclude_co2)`: adds
`ep(carrier)/efficiency` to every generator's marginal cost and
`ep(carrier)/efficiency_dispatch` to every storage unit's. -/
def add_emission_prices (cfg : Config) (n : Network)
    (emission_prices : Option (List (Str × ℚ))) (exclude_co2 : Bool) : Network :=
  let prices0 := emission_prices.getD cfg.emission_prices
  let prices := if exclude_co2 then prices0.filter (fun p => !(p.1 == "co2".toList)) else prices0
  { n with
    generators := n.generators.map (fun g =>
      { g with marginal_cost := g.marginal_cost + epOfCarrier prices n g.carrier / g.efficiency }),
    storage_units := n.storage_units.map (fun s =>
      { s with marginal_cost := s.marginal_cost + epOfCarrier prices n s.carrier / s.efficiency_dispatch }) }

/-- `np.clip(x, lo, hi)` for scalars with `lo ≤ hi`. -/
def clipQ (x lo hi : ℚ) : ℚ := max lo (min x hi)

/-- The security margin of `set_line_s_max_pu` as a function of the bus
count: `np.clip(0.5 + 0.2 * (n_clusters - 37) / (200 - 37), 0.5, 0.7)`. -/
def sMaxPuOf (nClusters : ℕ) : ℚ :=
  clipQ (1/2 + (1/5) * ((nClusters : ℚ) - 37) / (200 - 37)) (1/2) (7/10)

/-- `set_line_s_max_pu(n)`: writes the margin into every line. -/
def set_line_s_max_pu (n : Network) : Network :=
  { n with lines := n.lines.map (fun l => { l with s_max_pu := sMaxPuOf n.buses.length }) }

/-- `n.lines.s_nom.where(n.lines.type == '', _lines_s_nom)`: the nominal
rating of a line — its `s_nom` for untyped lines, otherwise
`sqrt(3) * i_nom(type) * num_parallel * v_nom(bus0)`.  `sqrt3` is passed
in as the rational value standing for the float `np.sqrt(3)`. -/
def lineNomOf (sqrt3 : ℚ) (n : Network) (l : Line) : ℚ :=
  if l.type == [] then l.s_nom
  else sqrt3 * (lookup? n.line_types l.type).getD 0 * l.num_parallel * busVnom n l.bus0

/-- The column selected by the transmission-limit type:
`'capital_cost' if ll_type == 'c' else 'length'`. -/
def llColLine (ll_type : Char) (l : Line) : ℚ :=
  if ll_type == 'c' then l.capital_cost else l.length

/-- Same column selection for links. -/
def llColLink (ll_type : Char) (k : Link) : ℚ :=
  if ll_type == 'c' then k.capital_cost else k.length

/-- `ref = lines_s_nom @ n.lines[col] + n.links[dc].p_nom @ n.links[dc][col]`:
the pre-existing tally of nominal capacity times capital cost (resp.
length) over all lines and the DC links. -/
def transmissionRef (sqrt3 : ℚ) (ll_type : Char) (n : Network) : ℚ :=
  (n.lines.map (fun l => lineNomOf sqrt3 n l * llColLine ll_type l)).sum +
  ((n.links.filter (fun k => k.carrier == "DC".toList)).map
    (fun k => k.p_nom * llColLink ll_type k)).sum

/-- Modelled from the spec: `update_transmission_costs` (imported from
`add_electricity`, which is not part of this repository's sources)
"recomputes per-unit transmission costs from the cost table" — each
line's and each DC link's capital cost is refreshed from a per-unit cost
times its length. -/
def update_transmission_costs (costPerLength : ℚ) (n : Network) : Network :=
  { n with
    lines := n.lines.map (fun l => { l with capital_cost := costPerLength * l.length }),
    links := n.links.map (fun k =>
      if k.carrier == "DC".toList then { k with capital_cost := costPerLength * k.length } else k) }

/-- The `{ll}` wildcard's factor part: either the literal string
`"opt"` or a string parsed by `float(factor)`. -/
inductive LLFactor where
  | opt : LLFactor
  | num : ℚ → LLFactor
deriving Repr, DecidableEq

/-- `factor == 'opt' or float(factor) > 1.0`. -/
def llExtendable : LLFactor → Bool
  | .opt => true
  | .num q => decide (1 < q)

/-- `set_transmission_limit(n, ll_type, factor, Nyears)`.  The reference
tally is computed before the capital-cost refresh, exactly as in the
source; the cost-table load (`load_costs`) is abstracted into the
per-unit cost handed to `update_transmission_costs`. -/
def set_transmission_limit (sqrt3 costPerLength : ℚ) (ll_type : Char)
    (factor : LLFactor) (n : Network) : Network :=
  let ref := transmissionRef sqrt3 ll_type n
  let lnom := fun l => lineNomOf sqrt3 n l
  let n1 := update_transmission_costs costPerLength n
  let n2 :=
    if llExtendable factor then
      { n1 with
        lines := n1.lines.map (fun l =>
          { l with s_nom_min := lnom l, s_nom_extendable := true }),
        links := n1.links.map (fun k =>
          if k.carrier == "DC".toList then
            { k with p_nom_min := k.p_nom, p_nom_extendable := true }
          else k) }
    else n1
  match factor with
  | .opt => n2
  | .num q =>
    let con_type := if ll_type == 'c' then "expansion_cost".toList else "volume_expansion".toList
    { n2 with global_constraints := n2.global_constraints ++
        [{ name := 'l' :: ll_type :: "_limit".toList
           type := "transmission_".toList ++ con_type ++ "_limit".toList
           carrier_attribute := "AC, DC".toList
           sense := "<=".toList
           constant := q * ref }] }

/-- Mean of a series' values within one bucket (`resample(offset).mean()`). -/
def listMean (xs : List ℚ) : ℚ := xs.sum / xs.length

/-- The bucket labels produced by `resample(offset)` over an hour index:
each snapshot hour `t` belongs to bucket `t / nh`.  (Buckets that contain
no snapshot are omitted; they carry weight 0 in pandas.) -/
def resampleBuckets (nh : ℕ) (xs : List (ℕ × ℚ)) : List ℕ :=
  (xs.map (fun s => s.1 / nh)).dedup

/-- Sum of a series' values within one bucket. -/
def bucketSum (nh : ℕ) (xs : List (ℕ × ℚ)) (b : ℕ) : ℚ :=
  ((xs.filter (fun s => s.1 / nh == b)).map (·.2)).sum

/-- `average_every_nhours(n, offset)` for an `nh`-hour offset: snapshot
weightings are summed per bucket, and every time-indexed component
series is averaged per bucket. -/
def average_every_nhours (nh : ℕ) (n : Network) : Network :=
  { n with
    snapshots := (resampleBuckets nh n.snapshots).map
      (fun b => (b, bucketSum nh n.snapshots b)),
    pnl := n.pnl.map (fun s =>
      (s.1, (resampleBuckets nh s.2).map (fun b =>
        (b, listMean ((s.2.filter (fun x => x.1 / nh == b)).map (·.2)))))) }

/-- `enforce_autarky(n, only_crossborder)`: removes all lines and links,
or — with `only_crossborder` — exactly those whose endpoint buses map to
different countries. -/
def enforce_autarky (n : Network) (only_crossborder : Bool) : Network :=
  if only_crossborder then
    { n with
      lines := n.lines.filter (fun l => busCountry n l.bus0 == busCountry n l.bus1),
      links := n.links.filter (fun k => busCountry n k.bus0 == busCountry n k.bus1) }
  else
    { n with lines := [], links := [] }

/-- Clip a value from above by an optional bound (`none` is `np.inf`). -/
def clipUpper (x : ℚ) : Option ℚ → ℚ
  | none => x
  | some u => min x u

/-- `set_line_nom_max(n)`: clips line `s_nom_max` by
`config["lines"].get("s_nom_max,", np.inf)` — the key carries a trailing
comma exactly as in the source — and link `p_nom_max` by
`config["links"].get("p_nom_max", np.inf)`. -/
def set_line_nom_max (cfg : Config) (n : Network) : Network :=
  let s_nom_max_set := lookup? cfg.lines_cfg "s_nom_max,".toList
  let p_nom_max_set := lookup? cfg.links_cfg "p_nom_max".toList
  { n with
    lines := n.lines.map (fun l => { l with s_nom_max := clipUpper l.s_nom_max s_nom_max_set }),
    links := n.links.map (fun k => { k with p_nom_max := clipUpper k.p_nom_max p_nom_max_set }) }

/-! ## The `__main__` dispatch -/

/-- `re.match(r'^\d+h$', o, re.IGNORECASE)`: one or more digits followed
by a final `h` or `H`. -/
def isResampleToken (o : Str) : Bool :=
  (o.getLastD 'x' == 'h' || o.getLastD 'x' == 'H')
    && !o.dropLast.isEmpty && o.dropLast.all (·.isDigit)

/-- The resampling loop: the first matching token wins (`break`), and the
network is resampled to that many hours; with no match, no resampling. -/
def resampleDispatch (opts : List Str) (n : Network) : Network :=
  match opts.find? isResampleToken with
  | some o => average_every_nhours (natOfDigits o.dropLast) n
  | none => n

/-- The body of the `"Co2L" in o` branch (after the guard). -/
def co2lAction (cfg : Config) (Ny : ℚ) (o : Str) (n : Network) : Network :=
  match trailingFloat o with
  | some m => add_co2limit cfg n Ny (some (parseFloatQ m))
  | none => add_co2limit cfg n Ny none

/-- The body of the `"SC" in o` branch: with a numeric suffix, set every
line's `s_max_pu` to it; otherwise set every line's `s_max_pu` to 1. -/
def scAction (o : Str) (n : Network) : Network :=
  match trailingFloat o with
  | some m => { n with lines := n.lines.map (fun l => { l with s_max_pu := parseFloatQ m }) }
  | none => { n with lines := n.lines.map (fun l => { l with s_max_pu := 1 }) }

/-- The body of the `"Ep" in o` branch: with a numeric suffix, emission
prices `dict(co2=float(m[0]))`; otherwise the configured defaults. -/
def epAction (cfg : Config) (o : Str) (n : Network) : Network :=
  match trailingFloat o with
  | some m => add_emission_prices cfg n (some [("co2".toList, parseFloatQ m)]) false
  | none => add_emission_prices cfg n none false

/-- One pass of the Co2L/SC/Ep loop body for a single token: three
independent substring-guarded modifiers, in the fixed source order. -/
def processOption (cfg : Config) (Ny : ℚ) (o : Str) (n : Network) : Network :=
  let n1 := if containsSub o "Co2L".toList then co2lAction cfg Ny o n else n
  let n2 := if containsSub o "SC".toList then scAction o n1 else n1
  if containsSub o "Ep".toList then epAction cfg o n2 else n2

/-- The full Co2L/SC/Ep token loop. -/
def optionLoop (cfg : Config) (Ny : ℚ) (opts : List Str) (n : Network) : Network :=
  opts.foldl (fun n o => processOption cfg Ny o n) n

/-- `map(lambda c: c.split("-", 2)[0], n.carriers.index)`: the leading
`-`-segment of each carrier name (`maxsplit=2` does not affect index 0). -/
def suptechs (n : Network) : List Str :=
  n.carriers.map (fun c => (splitOnChar '-' c.name).headD [])

/-- `oo[0].startswith(tuple(suptechs))`: whether the part of the token
before the first `+` starts with any carrier's leading segment. -/
def carrierGate (n : Network) (o : Str) : Bool :=
  (suptechs n).any (fun t => t.isPrefixOf ((splitOnChar '+' o).headD []))

/-- The mutation performed for a gated token whose factor parsed: for the
special carrier `"AC"` scale every line's capital cost; otherwise scale
the capital cost of exactly those generators, links and storage units
whose carrier *contains* the token's carrier string
(`c.df.carrier.str.contains(carrier)`). -/
def applyCarrierScale (n : Network) (carrier : Str) (q : ℚ) : Network :=
  if carrier == "AC".toList then
    { n with lines := n.lines.map (fun l => { l with capital_cost := l.capital_cost * q }) }
  else
    { n with
      generators := n.generators.map (fun g =>
        if containsSub g.carrier carrier then { g with capital_cost := g.capital_cost * q } else g),
      links := n.links.map (fun k =>
        if containsSub k.carrier carrier then { k with capital_cost := k.capital_cost * q } else k),
      storage_units := n.storage_units.map (fun s =>
        if containsSub s.carrier carrier then { s with capital_cost := s.capital_cost * q } else s) }

/-- One iteration of the carrier-cost-scaling loop.  `none` models a
raised exception: `oo[1]` on a token without `+` (IndexError) or
`float(oo[1])` on a non-numeric factor (ValueError). -/
def carrierScaleStep (n : Network) (o : Str) : Option Network :=
  let oo := splitOnChar '+' o
  if carrierGate n o then
    match oo with
    | _ :: f :: _ =>
      match pyFloat? f with
      | some q => some (applyCarrierScale n (oo.headD []) q)
      | none => none
    | _ => none
  else some n

/-- The carrier-cost-scaling loop over all tokens; an exception aborts it. -/
def carrierLoop (opts : List Str) (n : Network) : Option Network :=
  opts.foldlM carrierScaleStep n

/-- `if "ATK" in opts: ... elif "ATKc" in opts: ...` — membership tests
on the token list. -/
def autarkyDispatch (opts : List Str) (n : Network) : Network :=
  if opts.contains "ATK".toList then enforce_autarky n false
  else if opts.contains "ATKc".toList then enforce_autarky n true
  else n

/-- Modelled from the spec's words (for comparison with `trailingFloat`):
the greedy match of `[0-9]*\.?[0-9]+` starting at the given position. -/
def floatAtStart? (cs : Str) : Option Str :=
  let d1 := cs.takeWhile (·.isDigit)
  match cs.drop d1.length with
  | '.' :: r2 =>
    let d2 := r2.takeWhile (·.isDigit)
    if !d2.isEmpty then some (d1 ++ '.' :: d2)
    else if !d1.isEmpty then some d1 else none
  | _ => if !d1.isEmpty then some d1 else none

/-- Modelled from the spec's words: the "first decimal number found in
the token" — the leftmost (greedy) occurrence of `[0-9]*\.?[0-9]+`
anywhere in the token, with no end anchor. -/
def specFirstFloat : Str → Option Str
  | [] => none
  | c :: cs =>
    match floatAtStart? (c :: cs) with
    | some m => some m
    | none => specFirstFloat cs

/-! ## Concrete fixtures -/

def cfgEx : Config :=
  { co2limit := 5
    co2base := 100
    emission_prices := [("co2".toList, 30)]
    lines_cfg := [("s_nom_max".toList, 10)]
    links_cfg := [("p_nom_max".toList, 7)] }

def net0 : Network :=
  { buses := [], lines := [], links := [], generators := [], storage_units := []
    carriers := [], line_types := [], snapshots := [], pnl := [], global_constraints := [] }

def busA : Bus := { name := "A".toList, country := "DE".toList, v_nom := 380 }
def busB : Bus := { name := "B".toList, country := "FR".toList, v_nom := 380 }
def busC : Bus := { name := "C".toList, country := "DE".toList, v_nom := 220 }

/-- An untyped cross-border line from bus A (DE) to bus B (FR). -/
def line1 : Line :=
  { name := "L1".toList, bus0 := "A".toList, bus1 := "B".toList, type := []
    s_nom := 10, num_parallel := 1, s_nom_min := 0, s_nom_max := 20
    s_max_pu := 1, capital_cost := 3, length := 2, s_nom_extendable := false }

/-- An untyped domestic line from bus A (DE) to bus C (DE). -/
def line2 : Line :=
  { name := "L2".toList, bus0 := "A".toList, bus1 := "C".toList, type := []
    s_nom := 5, num_parallel := 1, s_nom_min := 0, s_nom_max := 4
    s_max_pu := 1, capital_cost := 1, length := 6, s_nom_extendable := false }

/-- A DC link from bus A (DE) to bus B (FR). -/
def linkDC : Link :=
  { name := "K1".toList, bus0 := "A".toList, bus1 := "B".toList, carrier := "DC".toList
    p_nom := 8, p_nom_min := 0, p_nom_max := 20, capital_cost := 2, length := 4
    p_nom_extendable := false }

/-- A gas link from bus A (DE) to bus C (DE). -/
def linkGas : Link :=
  { name := "K2".toList, bus0 := "A".toList, bus1 := "C".toList, carrier := "gas".toList
    p_nom := 3, p_nom_min := 0, p_nom_max := 5, capital_cost := 7, length := 9
    p_nom_extendable := false }

/-- Two snapshots weighted 8760 hours each: two simulated years. -/
def exNetC1 : Network := { net0 with snapshots := [(0, 8760), (1, 8760)] }

def exNetC2 : Network := { net0 with lines := [line1], links := [linkDC] }

def exNetC3 : Network := { net0 with lines := [line1] }

def exNetC4 : Network := { net0 with carriers := [{ name := "gas".toList, emissions := [] }] }

def exNetC5a : Network := { net0 with buses := List.replicate 37 busA, lines := [line1] }
def exNetC5b : Network := { net0 with buses := List.replicate 200 busA }

def exNetC6 : Network := { net0 with lines := [line1], links := [linkDC, linkGas] }

def exNetC7 : Network :=
  { net0 with buses := [busA, busB, busC], lines := [line1, line2], links := [linkDC, linkGas] }

def exNetC8 : Network :=
  { net0 with
    carriers := [{ name := "gas".toList, emissions := [] }]
    generators :=
      [ { name := "G1".toList, carrier := "biogas".toList, capital_cost := 100
          marginal_cost := 10, efficiency := 1 }
      , { name := "G2".toList, carrier := "wind".toList, capital_cost := 100
          marginal_cost := 5, efficiency := 1 } ] }

def exNetC9 : Network := { net0 with snapshots := [(0, 1), (1, 2), (2, 3)] }

/-! ## Theorems -/

/-- C1 (amended): the CO2-limit modifier body appends the `"CO2Limit"`
global constraint whose constant is `f × co2base × Nyears` when the token
carries a trailing numeric suffix `f`, and `co2limit × Nyears` — the
configured absolute limit, *also* scaled by `Nyears` — when it does not. -/
theorem co2l_constraint_constant (cfg : Config) (Ny : ℚ) (n : Network) (o : Str) :
    (co2lAction cfg Ny o n).global_constraints =
      n.global_constraints ++
        [{ name := "CO2Limit".toList
           type := "primary_energy".toList
           carrier_attribute := "co2_emissions".toList
           sense := "<=".toList
           constant := (match trailingFloat o with
                        | some m => parseFloatQ m * cfg.co2base
                        | none => cfg.co2limit) * Ny }] := by
  cases h : trailingFloat o <;> simp [co2lAction, add_co2limit, h]

/-- C1 counterexample: on a network spanning two simulated years
(`Nyears = 2`) with configured `co2limit = 5`, the token `"Co2L"` (no
numeric suffix) yields a constraint constant of `10 = co2limit × Nyears`,
not the unscaled `co2limit = 5` the claim states. -/
theorem co2l_unscaled_cex :
    (processOption cfgEx (nyears exNetC1) ("Co2L".toList) exNetC1).global_constraints.map
        (fun gc => gc.constant) = [10] ∧
    cfgEx.co2limit = 5 ∧ nyears exNetC1 = 2 ∧ (10 : ℚ) ≠ 5 := by
  have hC : containsSub ['C', 'o', '2', 'L'] ['C', 'o', '2', 'L'] = true := by decide
  have hS : containsSub ['C', 'o', '2', 'L'] ['S', 'C'] = false := by decide
  have hE : containsSub ['C', 'o', '2', 'L'] ['E', 'p'] = false := by decide
  have hT : trailingFloat ['C', 'o', '2', 'L'] = none := by decide
  have hN : nyears exNetC1 = 2 := by
    show ((exNetC1.snapshots.map (·.2)).sum) / 8760 = 2
    have : exNetC1.snapshots = [(0, 8760), (1, 8760)] := rfl
    rw [this]
    norm_num
  have hG : exNetC1.global_constraints = [] := rfl
  have h5 : cfgEx.co2limit = 5 := rfl
  refine ⟨?_, rfl, hN, by norm_num⟩
  simp [processOption, hC, hS, hE, co2lAction, hT, add_co2limit, hG, hN, h5]
  norm_num

/-- C2 (code bug): the source reads the lines bound from
`config["lines"].get("s_nom_max,", np.inf)` — the key has a trailing
comma — so a configured finite `s_nom_max = 10` is never found and the
line keeps `s_nom_max = 20 > 10`, while the links bound under the correct
key `p_nom_max = 7` does clip the link from 20 down to 7. -/
theorem set_line_nom_max_typo_bug :
    lookup? cfgEx.lines_cfg ("s_nom_max".toList) = some 10 ∧
    (set_line_nom_max cfgEx exNetC2).lines.map (fun l => l.s_nom_max) = [20] ∧
    (set_line_nom_max cfgEx exNetC2).links.map (fun k => k.p_nom_max) = [7] := by
  refine ⟨by decide, by decide, by decide⟩

/-- C3 (amended): the numeric value of the Co2L/SC/Ep modifiers comes
from the end-anchored regex `[0-9]*\.?[0-9]+$`: when extraction succeeds
it returns a *suffix* of the token matching the decimal grammar, and the
longest such suffix; when it fails, *no* suffix of the token matches the
grammar (and the modifiers fall back to their configured defaults). -/
theorem trailingFloat_spec (o s : Str) :
    (∀ m, trailingFloat o = some m →
        isFloatStr m = true ∧ m <:+ o ∧
        (s <:+ o → isFloatStr s = true → s.length ≤ m.length)) ∧
    (trailingFloat o = none → s <:+ o → isFloatStr s = false) := by
  induction o with
  | nil =>
    constructor
    · intro m hm
      simp [trailingFloat] at hm
    · intro _ hs
      have hs' : s = [] := List.suffix_nil.mp hs
      subst hs'
      decide
  | cons c cs ih =>
    by_cases h : isFloatStr (c :: cs) = true
    · constructor
      · intro m hm
        rw [trailingFloat, if_pos h] at hm
        obtain rfl : c :: cs = m := Option.some_injective _ hm
        exact ⟨h, List.suffix_refl _, fun hs _ => hs.length_le⟩
      · intro hnone
        rw [trailingFloat, if_pos h] at hnone
        exact absurd hnone (Option.some_ne_none _)
    · have hstep : trailingFloat (c :: cs) = trailingFloat cs := by
        rw [trailingFloat, if_neg h]
      constructor
      · intro m hm
        rw [hstep] at hm
        obtain ⟨h1, h2, h3⟩ := ih.1 m hm
        refine ⟨h1, h2.trans (List.suffix_cons c cs), ?_⟩
        intro hs hfs
        rcases List.suffix_cons_iff.mp hs with rfl | hs'
        · exact absurd hfs h
        · exact h3 hs' hfs
      · intro hnone hs
        rw [hstep] at hnone
        rcases List.suffix_cons_iff.mp hs with rfl | hs'
        · cases hb : isFloatStr (c :: cs)
          · rfl
          · exact absurd hb h
        · exact ih.2 hnone hs'

/-- C3 witness: on the token `"Co2L0.05"`, extraction returns the suffix
`"0.05"`, which matches the decimal grammar and is at least as long as
the matching suffix `"05"`. -/
theorem trailingFloat_spec_witness :
    isFloatStr ("0.05".toList) = true ∧ ("0.05".toList) <:+ ("Co2L0.05".toList) ∧
    ("05".toList).length ≤ ("0.05".toList).length := by
  have h := (trailingFloat_spec ("Co2L0.05".toList) ("05".toList)).1 ("0.05".toList) (by decide)
  exact ⟨h.1, h.2.1, h.2.2 (by decide) (by decide)⟩

/-- C3 counterexample: the token `"SC0.5x"` contains the decimal number
`"0.5"` (which the claim's "first decimal number found in the token" rule
would extract, value 1/2), but the end-anchored regex finds no match, so
the SC modifier falls back to its default and sets every line's margin
to 1, not to 0.5. -/
theorem first_float_rule_cex :
    trailingFloat ("SC0.5x".toList) = none ∧
    specFirstFloat ("SC0.5x".toList) = some ("0.5".toList) ∧
    parseFloatQ ("0.5".toList) = 1/2 ∧
    (processOption cfgEx 1 ("SC0.5x".toList) exNetC3).lines.map (fun l => l.s_max_pu) = [1] ∧
    (1 : ℚ) ≠ 1/2 := by
  refine ⟨by decide, by decide, ?_, by decide, by norm_num⟩
  have h : "0.5".toList.span (·.isDigit) = (['0'], ['.', '5']) := by decide
  simp only [parseFloatQ, h]
  rw [show natOfDigits ['0'] = 0 from by decide, show natOfDigits ['5'] = 5 from by decide]
  norm_num

/-- C4 counterexample: in a network whose carriers include `"gas"`, the
token `"gas"` passes the `startswith` gate of the carrier-scaling loop
but has no `"+"`-separated factor, so `oo[1]` raises an IndexError — the
token-dispatch loop does raise an error on a token that matches none of
the recognized patterns (it is not a `<carrier>+<factor>` token). -/
theorem unrecognized_token_error_cex :
    carrierScaleStep exNetC4 ("gas".toList) = none ∧
    carrierLoop [("gas".toList)] exNetC4 = none := by
  exact ⟨by decide, by decide⟩

/-- C4 (amended): a token matching none of the recognized patterns — no
`<digits>H` resample match, none of the Co2L/SC/Ep substrings, not gated
by a carrier prefix, and not an autarky literal — is silently ignored:
every dispatch loop leaves the network unchanged, raises nothing, and
continues with the remaining tokens.  (A token that *does* prefix-match
a carrier but lacks a parsable `+`-factor instead raises an error.) -/
theorem unrecognized_token_ignored (cfg : Config) (Ny : ℚ) (n : Network) (o : Str)
    (rest rest2 : List Str)
    (h1 : containsSub o ("Co2L".toList) = false)
    (h2 : containsSub o ("SC".toList) = false)
    (h3 : containsSub o ("Ep".toList) = false)
    (h4 : isResampleToken o = false)
    (h5 : carrierGate n o = false)
    (h6 : o ≠ "ATK".toList) (h7 : o ≠ "ATKc".toList) :
    processOption cfg Ny o n = n ∧
    carrierScaleStep n o = some n ∧
    carrierLoop (o :: rest) n = carrierLoop rest n ∧
    resampleDispatch (o :: rest2) n = resampleDispatch rest2 n ∧
    autarkyDispatch [o] n = n := by
  have g1 : containsSub o ['C', 'o', '2', 'L'] = false := h1
  have g2 : containsSub o ['S', 'C'] = false := h2
  have g3 : containsSub o ['E', 'p'] = false := h3
  have hA : (([o] : List Str).contains (['A', 'T', 'K'])) = false := by
    simp [List.contains]
    exact fun hc => h6 hc.symm
  have hAc : (([o] : List Str).contains (['A', 'T', 'K', 'c'])) = false := by
    simp [List.contains]
    exact fun hc => h7 hc.symm
  refine ⟨?_, ?_, ?_, ?_, ?_⟩
  · simp [processOption, g1, g2, g3]
  · simp [carrierScaleStep, h5]
  · simp [carrierLoop, List.foldlM, carrierScaleStep, h5]
  · simp [resampleDispatch, List.find?, h4]
  · simp [autarkyDispatch, hA, hAc]
    rw [if_neg (fun e => h6 e.symm), if_neg (fun e => h7 e.symm)]

/-- C4 witness: the concrete unrecognized token `"XYZ"` is ignored by
every loop on a network whose carriers are `["gas"]`. -/
theorem unrecognized_token_ignored_witness :
    processOption cfgEx 1 ("XYZ".toList) exNetC4 = exNetC4 ∧
    carrierScaleStep exNetC4 ("XYZ".toList) = some exNetC4 ∧
    carrierLoop [("XYZ".toList)] exNetC4 = carrierLoop [] exNetC4 ∧
    resampleDispatch [("XYZ".toList)] exNetC4 = resampleDispatch [] exNetC4 ∧
    autarkyDispatch [("XYZ".toList)] exNetC4 = exNetC4 :=
  unrecognized_token_ignored cfgEx 1 exNetC4 ("XYZ".toList) [] []
    (by decide) (by decide) (by decide) (by decide) (by decide) (by decide) (by decide)

/-- C5: `set_line_s_max_pu` writes
`clip(0.5 + 0.2 × (busCount − 37) / (200 − 37), 0.5, 0.7)` into every
line; the margin is exactly 0.5 for at most 37 buses, exactly 0.7 for at
least 200 buses, and monotonically non-decreasing in the bus count. -/
theorem line_margin_spec (n n' : Network) :
    (∀ l ∈ (set_line_s_max_pu n).lines, l.s_max_pu = sMaxPuOf n.buses.length) ∧
    (n.buses.length ≤ 37 → sMaxPuOf n.buses.length = 1/2) ∧
    (200 ≤ n'.buses.length → sMaxPuOf n'.buses.length = 7/10) ∧
    (n.buses.length ≤ n'.buses.length →
      sMaxPuOf n.buses.length ≤ sMaxPuOf n'.buses.length) := by
  have hmono : ∀ a b : ℕ, a ≤ b → sMaxPuOf a ≤ sMaxPuOf b := by
    intro a b hab
    unfold sMaxPuOf clipQ
    have hc : (a : ℚ) ≤ (b : ℚ) := by exact_mod_cast hab
    have hf : 1/2 + (1/5) * ((a : ℚ) - 37) / (200 - 37) ≤
        1/2 + (1/5) * ((b : ℚ) - 37) / (200 - 37) := by linarith
    exact max_le_max le_rfl (min_le_min hf le_rfl)
  refine ⟨?_, ?_, ?_, fun h => hmono _ _ h⟩
  · intro l hl
    simp only [set_line_s_max_pu, List.mem_map] at hl
    obtain ⟨l0, _, rfl⟩ := hl
    rfl
  · intro h
    unfold sMaxPuOf clipQ
    have hk : ((n.buses.length : ℕ) : ℚ) ≤ 37 := by exact_mod_cast h
    have hf : 1/2 + (1/5) * ((n.buses.length : ℚ) - 37) / (200 - 37) ≤ 1/2 := by linarith
    exact max_eq_left (le_trans (min_le_left _ _) hf)
  · intro h
    unfold sMaxPuOf clipQ
    have hk : (200 : ℚ) ≤ ((n'.buses.length : ℕ) : ℚ) := by exact_mod_cast h
    have hf : (7/10 : ℚ) ≤ 1/2 + (1/5) * ((n'.buses.length : ℚ) - 37) / (200 - 37) := by
      linarith
    rw [min_eq_right hf]
    exact max_eq_right (by norm_num)

set_option maxRecDepth 4000 in
/-- C5 witness: at 37 buses the margin is 0.5, at 200 buses it is 0.7,
and the former is at most the latter. -/
theorem line_margin_spec_witness :
    sMaxPuOf (exNetC5a.buses.length) = 1/2 ∧
    sMaxPuOf (exNetC5b.buses.length) = 7/10 ∧
    sMaxPuOf (exNetC5a.buses.length) ≤ sMaxPuOf (exNetC5b.buses.length) :=
  have h := line_margin_spec exNetC5a exNetC5b
  ⟨h.2.1 (by decide), h.2.2.1 (by decide), h.2.2.2 (by decide)⟩

/-- C6: for the transmission-limit step, if the factor is `"opt"` or a
number strictly above 1 then every line and every DC link is marked
extendable with its minimum capacity floored at its current nominal
capacity (for lines the effective nominal rating `lines_s_nom`, for DC
links `p_nom`); and a global constraint of the matching expansion type
with constant `factor × reference` is added exactly when the factor is
not `"opt"`, with the reference tallied from the pre-existing capital
costs (resp. lengths). -/
theorem set_transmission_limit_spec (sqrt3 cpl : ℚ) (t : Char) (factor : LLFactor)
    (n : Network) :
    (llExtendable factor = true →
      (set_transmission_limit sqrt3 cpl t factor n).lines =
        n.lines.map (fun l =>
          { l with capital_cost := cpl * l.length
                   s_nom_min := lineNomOf sqrt3 n l
                   s_nom_extendable := true }) ∧
      (set_transmission_limit sqrt3 cpl t factor n).links =
        n.links.map (fun k =>
          if k.carrier == "DC".toList then
            { k with capital_cost := cpl * k.length
                     p_nom_min := k.p_nom
                     p_nom_extendable := true }
          else k)) ∧
    (factor = LLFactor.opt →
      (set_transmission_limit sqrt3 cpl t factor n).global_constraints =
        n.global_constraints) ∧
    (∀ q, factor = LLFactor.num q →
      (set_transmission_limit sqrt3 cpl t factor n).global_constraints =
        n.global_constraints ++
          [{ name := 'l' :: t :: "_limit".toList
             type := "transmission_".toList ++
               (if t == 'c' then "expansion_cost".toList else "volume_expansion".toList) ++
               "_limit".toList
             carrier_attribute := "AC, DC".toList
             sense := "<=".toList
             constant := q * transmissionRef sqrt3 t n }]) := by
  refine ⟨fun he => ⟨?_, ?_⟩, fun ho => ?_, fun q hq => ?_⟩
  · cases factor with
    | opt =>
      simp only [set_transmission_limit, update_transmission_costs, llExtendable, if_true]
      rw [List.map_map]
      rfl
    | num q =>
      simp only [set_transmission_limit, update_transmission_costs, he, if_true]
      rw [List.map_map]
      rfl
  · have hlinks : ∀ m : LLFactor, llExtendable m = true →
        (set_transmission_limit sqrt3 cpl t m n).links =
          n.links.map (fun k =>
            if k.carrier == "DC".toList then
              { k with capital_cost := cpl * k.length
                       p_nom_min := k.p_nom
                       p_nom_extendable := true }
            else k) := by
      intro m hm
      cases m with
      | opt =>
        simp only [set_transmission_limit, update_transmission_costs, llExtendable, if_true]
        rw [List.map_map]
        apply List.map_congr_left
        intro k _
        simp only [Function.comp]
        split_ifs <;> simp_all
      | num q =>
        simp only [set_transmission_limit, update_transmission_costs, hm, if_true]
        rw [List.map_map]
        apply List.map_congr_left
        intro k _
        simp only [Function.comp]
        split_ifs <;> simp_all
    exact hlinks factor he
  · cases factor with
    | opt =>
      by_cases hext : llExtendable LLFactor.opt = true
      · simp only [set_transmission_limit, update_transmission_costs, hext, if_true]
      · exact absurd rfl hext
    | num q => exact absurd ho (by simp)
  · cases factor with
    | opt => exact absurd hq (by simp)
    | num q' =>
      obtain rfl : q' = q := by
        cases hq
        rfl
      by_cases hext : llExtendable (LLFactor.num q') = true
      · simp only [set_transmission_limit, update_transmission_costs, hext, if_true]
      · simp only [set_transmission_limit, update_transmission_costs, hext, if_false]
        simp

/-- C6 witness: with factor 2 (> 1, not `"opt"`) on a concrete network,
every line is made extendable with `s_nom_min` at its nominal rating and
the volume-expansion constraint with constant `2 × reference` is added. -/
theorem set_transmission_limit_spec_witness :
    (set_transmission_limit (7/4) 5 'v' (LLFactor.num 2) exNetC6).lines =
      exNetC6.lines.map (fun l =>
        { l with capital_cost := 5 * l.length
                 s_nom_min := lineNomOf (7/4) exNetC6 l
                 s_nom_extendable := true }) ∧
    (set_transmission_limit (7/4) 5 'v' (LLFactor.num 2) exNetC6).global_constraints =
      exNetC6.global_constraints ++
        [{ name := 'l' :: 'v' :: "_limit".toList
           type := "transmission_".toList ++
             (if 'v' == 'c' then "expansion_cost".toList else "volume_expansion".toList) ++
             "_limit".toList
           carrier_attribute := "AC, DC".toList
           sense := "<=".toList
           constant := 2 * transmissionRef (7/4) 'v' exNetC6 }] :=
  have h := set_transmission_limit_spec (7/4) 5 'v' (LLFactor.num 2) exNetC6
  ⟨(h.1 (by norm_num [llExtendable])).1, h.2.2 2 rfl⟩

/-- C7: with `"ATK"` among the tokens every line and link is removed;
with `"ATKc"` (and no `"ATK"`) exactly the lines and links whose endpoint
buses lie in different countries are removed, and every same-country line
and link remains in the network unchanged. -/
theorem autarky_spec (n : Network) (opts : List Str) :
    (opts.contains ("ATK".toList) = true →
      (autarkyDispatch opts n).lines = [] ∧ (autarkyDispatch opts n).links = []) ∧
    (opts.contains ("ATK".toList) = false → opts.contains ("ATKc".toList) = true →
      (autarkyDispatch opts n).lines =
        n.lines.filter (fun l => busCountry n l.bus0 == busCountry n l.bus1) ∧
      (autarkyDispatch opts n).links =
        n.links.filter (fun k => busCountry n k.bus0 == busCountry n k.bus1) ∧
      (∀ l ∈ n.lines, busCountry n l.bus0 = busCountry n l.bus1 →
        l ∈ (autarkyDispatch opts n).lines) ∧
      (∀ k ∈ n.links, busCountry n k.bus0 = busCountry n k.bus1 →
        k ∈ (autarkyDispatch opts n).links)) := by
  constructor
  · intro hA
    have hm : ['A', 'T', 'K'] ∈ opts := by simpa using hA
    constructor <;> simp [autarkyDispatch, enforce_autarky, hm]
  · intro hA hAc
    have hm1 : ['A', 'T', 'K'] ∉ opts := by simpa using hA
    have hm2 : ['A', 'T', 'K', 'c'] ∈ opts := by simpa using hAc
    have hd : autarkyDispatch opts n = enforce_autarky n true := by
      simp [autarkyDispatch, hm1, hm2]
    rw [hd]
    refine ⟨rfl, rfl, ?_, ?_⟩
    · intro l hl hc
      show l ∈ n.lines.filter (fun l => busCountry n l.bus0 == busCountry n l.bus1)
      simp [List.mem_filter, hl, hc]
    · intro k hk hc
      show k ∈ n.links.filter (fun k => busCountry n k.bus0 == busCountry n k.bus1)
      simp [List.mem_filter, hk, hc]

/-- C7 witness: on a three-bus network (A, C in DE; B in FR), `"ATK"`
empties lines and links, while `"ATKc"` keeps exactly the same-country
line `line2` and link `linkGas`. -/
theorem autarky_spec_witness :
    (autarkyDispatch [("ATK".toList)] exNetC7).lines = [] ∧
    (autarkyDispatch [("ATK".toList)] exNetC7).links = [] ∧
    (autarkyDispatch [("ATKc".toList)] exNetC7).lines =
      exNetC7.lines.filter (fun l => busCountry exNetC7 l.bus0 == busCountry exNetC7 l.bus1) ∧
    line2 ∈ (autarkyDispatch [("ATKc".toList)] exNetC7).lines ∧
    linkGas ∈ (autarkyDispatch [("ATKc".toList)] exNetC7).links :=
  have h1 := autarky_spec exNetC7 [("ATK".toList)]
  have h2 := autarky_spec exNetC7 [("ATKc".toList)]
  ⟨(h1.1 (by decide)).1, (h1.1 (by decide)).2,
   (h2.2 (by decide) (by decide)).1,
   (h2.2 (by decide) (by decide)).2.2.1 line2 (by decide) (by decide),
   (h2.2 (by decide) (by decide)).2.2.2 linkGas (by decide) (by decide)⟩

/-- Splitting a separator-free string yields the single piece. -/
lemma splitOnChar_not_mem (sep : Char) (s : Str) (h : sep ∉ s) :
    splitOnChar sep s = [s] := by
  induction s with
  | nil => rfl
  | cons a as ih =>
    have ha : ¬(a == sep) = true := by
      simp only [beq_iff_eq]
      intro e
      exact h (by rw [e]; exact List.mem_cons_self _ _)
    have ih' := ih (fun hm => h (List.mem_cons_of_mem _ hm))
    simp only [splitOnChar, if_neg ha, ih']

/-- `(c ++ "+" ++ f).split("+") == [c, f]` when neither side holds the
separator. -/
lemma splitOnChar_sep_append (sep : Char) (c f : Str) (hc : sep ∉ c) (hf : sep ∉ f) :
    splitOnChar sep (c ++ sep :: f) = [c, f] := by
  induction c with
  | nil =>
    simp only [List.nil_append, splitOnChar, beq_self_eq_true, if_true,
      splitOnChar_not_mem sep f hf]
  | cons a as ih =>
    have ha : ¬(a == sep) = true := by
      simp only [beq_iff_eq]
      intro e
      exact hc (by rw [e]; exact List.mem_cons_self _ _)
    have ih' := ih (fun hm => hc (List.mem_cons_of_mem _ hm))
    simp only [List.cons_append, splitOnChar, if_neg ha, List.append_eq, ih']

/-- C8 (amended): a token `<prefix>+<factor>` whose head passes the
carrier gate multiplies the capital cost of exactly those generators,
links and storage units whose carrier *contains* the prefix as a
substring (`str.contains`, not `startswith`) — or, for the special
prefix `"AC"`, of all lines — and applying the same scaling twice
multiplies those capital costs by the factor squared. -/
theorem carrier_scale_spec (n : Network) (c f : Str) (q : ℚ)
    (hcp : '+' ∉ c) (hfp : '+' ∉ f)
    (hq : pyFloat? f = some q)
    (hg : carrierGate n (c ++ '+' :: f) = true) :
    carrierScaleStep n (c ++ '+' :: f) = some (applyCarrierScale n c q) ∧
    ((c == "AC".toList) = false →
      (applyCarrierScale n c q).generators =
        n.generators.map (fun g =>
          if containsSub g.carrier c then
            { g with capital_cost := g.capital_cost * q } else g) ∧
      (applyCarrierScale n c q).links =
        n.links.map (fun k =>
          if containsSub k.carrier c then
            { k with capital_cost := k.capital_cost * q } else k) ∧
      (applyCarrierScale n c q).storage_units =
        n.storage_units.map (fun s =>
          if containsSub s.carrier c then
            { s with capital_cost := s.capital_cost * q } else s) ∧
      (applyCarrierScale (applyCarrierScale n c q) c q).generators =
        n.generators.map (fun g =>
          if containsSub g.carrier c then
            { g with capital_cost := g.capital_cost * (q * q) } else g)) ∧
    ((c == "AC".toList) = true →
      (applyCarrierScale n c q).lines =
        n.lines.map (fun l => { l with capital_cost := l.capital_cost * q }) ∧
      (applyCarrierScale (applyCarrierScale n c q) c q).lines =
        n.lines.map (fun l => { l with capital_cost := l.capital_cost * (q * q) })) := by
  refine ⟨?_, fun hAC => ⟨?_, ?_, ?_, ?_⟩, fun hAC => ⟨?_, ?_⟩⟩
  · rw [carrierScaleStep]
    rw [splitOnChar_sep_append '+' c f hcp hfp]
    rw [if_pos hg]
    simp [hq]
  · simp only [applyCarrierScale, hAC, Bool.false_eq_true, if_false]
  · simp only [applyCarrierScale, hAC, Bool.false_eq_true, if_false]
  · simp only [applyCarrierScale, hAC, Bool.false_eq_true, if_false]
  · simp only [applyCarrierScale, hAC, Bool.false_eq_true, if_false]
    rw [List.map_map]
    apply List.map_congr_left
    intro g _
    simp only [Function.comp]
    split_ifs <;> simp_all [mul_assoc]
  · simp only [applyCarrierScale, hAC, if_true]
  · simp only [applyCarrierScale, hAC, if_true]
    rw [List.map_map]
    apply List.map_congr_left
    intro l _
    simp [mul_assoc]

/-- C8 witness: the token `"gas+2"` on a network with carriers `["gas"]`
and generators with carriers `"biogas"` and `"wind"` parses to factor 2
and doubles the capital cost of exactly the carrier-containing
components, and twice quadruples it. -/
theorem carrier_scale_spec_witness :
    carrierScaleStep exNetC8 ("gas".toList ++ '+' :: "2".toList) =
      some (applyCarrierScale exNetC8 ("gas".toList) 2) ∧
    (applyCarrierScale exNetC8 ("gas".toList) 2).generators =
      exNetC8.generators.map (fun g =>
        if containsSub g.carrier ("gas".toList) then
          { g with capital_cost := g.capital_cost * 2 } else g) ∧
    (applyCarrierScale (applyCarrierScale exNetC8 ("gas".toList) 2) ("gas".toList) 2).generators =
      exNetC8.generators.map (fun g =>
        if containsSub g.carrier ("gas".toList) then
          { g with capital_cost := g.capital_cost * (2 * 2) } else g) :=
  have h := carrier_scale_spec exNetC8 ("gas".toList) ("2".toList) 2
    (by decide) (by decide) (by decide) (by decide)
  ⟨h.1, (h.2.1 (by decide)).1, (h.2.1 (by decide)).2.2.2⟩

/-- C8 counterexample: applying the token `"gas+1.2"` on the same
network multiplies the capital cost of the `"biogas"` generator by 1.2
(to 120), even though `"biogas"` does not start with `"gas"` — the
selection is by substring containment, not by prefix. -/
theorem carrier_scale_startswith_cex :
    carrierScaleStep exNetC8 ("gas+1.2".toList) =
      some (applyCarrierScale exNetC8 ("gas".toList) (6/5)) ∧
    (applyCarrierScale exNetC8 ("gas".toList) (6/5)).generators.map
      (fun g => g.capital_cost) = [120, 100] ∧
    ("gas".toList).isPrefixOf ("biogas".toList) = false := by
  refine ⟨?_, ?_, by decide⟩
  · have hsplit : splitOnChar '+' ("gas+1.2".toList) = ["gas".toList, "1.2".toList] := by
      decide
    have hg : carrierGate exNetC8 ("gas+1.2".toList) = true := by decide
    have hidx : ("1.2".toList).findIdx? (fun c => c == 'e' || c == 'E') = none := by decide
    have hspan : ("1.2".toList).span (·.isDigit) = (['1'], ['.', '2']) := by decide
    have hf : pyFloat? ['1', '.', '2'] = some (6/5) := by
      have h1 : pyFloat? ['1', '.', '2'] = pyMantissa? ['1', '.', '2'] := rfl
      have h2 : pyMantissa? ['1', '.', '2'] =
          some ((natOfDigits ['1'] : ℚ) + (natOfDigits ['2'] : ℚ) / 10 ^ (['2']).length) := rfl
      rw [h1, h2]
      rw [show natOfDigits ['1'] = 1 from by decide, show natOfDigits ['2'] = 2 from by decide]
      norm_num
    rw [carrierScaleStep, hsplit, if_pos hg]
    simp [hf]
  · have hbio : containsSub ("biogas".toList) ("gas".toList) = true := by decide
    have hwind : containsSub ("wind".toList) ("gas".toList) = false := by decide
    have hAC : (("gas".toList : Str) == "AC".toList) = false := by decide
    have hgens : exNetC8.generators =
        [ { name := "G1".toList, carrier := "biogas".toList, capital_cost := 100
            marginal_cost := 10, efficiency := 1 }
        , { name := "G2".toList, carrier := "wind".toList, capital_cost := 100
            marginal_cost := 5, efficiency := 1 } ] := rfl
    simp only [applyCarrierScale, hAC, Bool.false_eq_true, if_false, hgens,
      List.map_cons, List.map_nil, hbio, hwind, if_true, if_false]
    norm_num

/-- Summing a pointwise sum of two functions over a list splits. -/
lemma sum_map_add_split (B : List ℕ) (f g : ℕ → ℚ) :
    (B.map (fun b => f b + g b)).sum = (B.map f).sum + (B.map g).sum := by
  induction B with
  | nil => simp
  | cons b B ih =>
    simp [ih]
    ring

/-- A bucket indicator summed over labels not containing the key is 0. -/
lemma sum_map_ite_zero (B : List ℕ) (a : ℕ) (v : ℚ) (ha : a ∉ B) :
    (B.map (fun b => if a = b then v else 0)).sum = 0 := by
  induction B with
  | nil => simp
  | cons b B ih =>
    have hab : a ≠ b := by
      rintro rfl
      exact ha (List.mem_cons_self _ _)
    simp [hab, ih (fun hm => ha (List.mem_cons_of_mem _ hm))]

/-- A bucket indicator summed over distinct labels containing the key
picks out the value. -/
lemma sum_map_ite_eq (B : List ℕ) (a : ℕ) (v : ℚ) (hB : B.Nodup) (ha : a ∈ B) :
    (B.map (fun b => if a = b then v else 0)).sum = v := by
  induction B with
  | nil => cases ha
  | cons b B ih =>
    rcases List.mem_cons.mp ha with rfl | ha'
    · have hnot : a ∉ B := (List.nodup_cons.mp hB).1
      simp [sum_map_ite_zero B a v hnot]
    · have hab : a ≠ b := by
        rintro rfl
        exact (List.nodup_cons.mp hB).1 ha'
      simp [hab, ih (List.nodup_cons.mp hB).2 ha']

/-- Summing the per-bucket weight sums over any duplicate-free list of
labels covering all keys recovers the total weight. -/
lemma bucket_sum_eq (nh : ℕ) (B : List ℕ) (xs : List (ℕ × ℚ))
    (hB : B.Nodup) (hx : ∀ x ∈ xs, x.1 / nh ∈ B) :
    (B.map (fun b => bucketSum nh xs b)).sum = (xs.map (·.2)).sum := by
  induction xs with
  | nil => simp [bucketSum]
  | cons x xs ih =>
    have hx' : ∀ y ∈ xs, y.1 / nh ∈ B := fun y hy => hx y (List.mem_cons_of_mem _ hy)
    have hmem : x.1 / nh ∈ B := hx x (List.mem_cons_self _ _)
    have hsplit : ∀ b, bucketSum nh (x :: xs) b =
        (if x.1 / nh = b then x.2 else 0) + bucketSum nh xs b := by
      intro b
      by_cases hc : x.1 / nh = b
      · simp [bucketSum, List.filter_cons, hc]
      · simp [bucketSum, List.filter_cons, hc]
    calc (B.map (fun b => bucketSum nh (x :: xs) b)).sum
        = (B.map (fun b => (if x.1 / nh = b then x.2 else 0) + bucketSum nh xs b)).sum := by
          congr 1
          exact List.map_congr_left (fun b _ => hsplit b)
      _ = (B.map (fun b => if x.1 / nh = b then x.2 else 0)).sum +
            (B.map (fun b => bucketSum nh xs b)).sum :=
          sum_map_add_split B _ _
      _ = x.2 + (xs.map (·.2)).sum := by
          rw [sum_map_ite_eq B _ _ hB hmem, ih hx']
      _ = ((x :: xs).map (·.2)).sum := by simp

/-- C9: temporal resampling sums the snapshot weightings per bucket (and
averages every time-indexed series per bucket), so for every network and
every valid (positive) hour offset the total snapshot weight is
preserved. -/
theorem resample_weight_sum (nh : ℕ) (_hpos : 0 < nh) (n : Network) :
    ((average_every_nhours nh n).snapshots.map (·.2)).sum =
      (n.snapshots.map (·.2)).sum := by
  have hB : (resampleBuckets nh n.snapshots).Nodup := List.nodup_dedup _
  have hx : ∀ x ∈ n.snapshots, x.1 / nh ∈ resampleBuckets nh n.snapshots := by
    intro x hxm
    exact List.mem_dedup.mpr (List.mem_map_of_mem _ hxm)
  have hmain := bucket_sum_eq nh (resampleBuckets nh n.snapshots) n.snapshots hB hx
  simpa [average_every_nhours, List.map_map, Function.comp] using hmain

/-- C9 witness: resampling the three snapshots (0,1),(1,2),(2,3) with a
2-hour offset preserves the total weight 6. -/
theorem resample_weight_sum_witness :
    ((average_every_nhours 2 exNetC9).snapshots.map (·.2)).sum =
      (exNetC9.snapshots.map (·.2)).sum :=
  resample_weight_sum 2 (by decide) exNetC9

/-- C10: the Co2L, SC and Ep modifiers are guarded by independent
substring tests on each token, dispatched in the fixed order Co2L, then
SC, then Ep — so one token containing both `"SC"` and `"Ep"` triggers
both modifiers in that order on the same pass (after the Co2L step, which
fires iff the token also contains `"Co2L"`). -/
theorem multi_trigger_order (cfg : Config) (Ny : ℚ) (o : Str) (n : Network)
    (h2 : containsSub o ("SC".toList) = true)
    (h3 : containsSub o ("Ep".toList) = true) :
    processOption cfg Ny o n =
      epAction cfg o (scAction o
        (if containsSub o ("Co2L".toList) then co2lAction cfg Ny o n else n)) := by
  have g2 : containsSub o ['S', 'C'] = true := h2
  have g3 : containsSub o ['E', 'p'] = true := h3
  simp [processOption, g2, g3]

/-- C10 witness: the single token `"Co2LSCEp0.5"` contains all three
trigger substrings and is processed as the ordered composition of the
three modifier bodies. -/
theorem multi_trigger_order_witness :
    processOption cfgEx 1 ("Co2LSCEp0.5".toList) exNetC3 =
      epAction cfgEx ("Co2LSCEp0.5".toList) (scAction ("Co2LSCEp0.5".toList)
        (if containsSub ("Co2LSCEp0.5".toList) ("Co2L".toList) then
          co2lAction cfgEx 1 ("Co2LSCEp0.5".toList) exNetC3 else exNetC3)) :=
  multi_trigger_order cfgEx 1 ("Co2LSCEp0.5".toList) exNetC3 (by decide) (by decide)

end PrepareNetwork
